import Mathlib

/-!
# Verification of the expo-uae-pass authentication core

A shallow embedding of the UAE Pass OAuth2/OIDC client
(`src/unnamed/part_001`, `src/src/config/uaePassConfig.ts`,
`src/src/components/UAEPassWebViewAuth.tsx`) together with executable
models of the JavaScript string/URL primitives the code relies on
(`URL`, `URLSearchParams`, `encodeURIComponent`, `decodeURIComponent`,
`String.prototype.replace/startsWith/includes/split`).

Effectful primitives (deep-link listeners, timers, native-module calls,
the system browser session) are modelled by explicit environment records
and event timelines; JavaScript exceptions are modelled with `Option`
and `Except`.
-/

set_option linter.unusedVariables false
set_option maxHeartbeats 1600000
set_option maxRecDepth 4096

namespace ExpoUAEPass

/-! ## Character classes and hexadecimal digits -/

def isLowerAlpha (c : Char) : Bool := 'a' ≤ c && c ≤ 'z'

def isAsciiAlpha (c : Char) : Bool := ('a' ≤ c && c ≤ 'z') || ('A' ≤ c && c ≤ 'Z')

def isAsciiDigit (c : Char) : Bool := '0' ≤ c && c ≤ '9'

/-- Upper-case hexadecimal digit for `n < 16` (percent-encoders emit upper case). -/
def hexDigitChar (n : Nat) : Char :=
  if n < 10 then Char.ofNat (48 + n) else Char.ofNat (55 + n)

def isHexDigit (c : Char) : Bool :=
  isAsciiDigit c || ('A' ≤ c && c ≤ 'F') || ('a' ≤ c && c ≤ 'f')

def hexVal (c : Char) : Nat :=
  if isAsciiDigit c then c.toNat - 48
  else if 'A' ≤ c && c ≤ 'F' then c.toNat - 55
  else c.toNat - 87

/-! ## UTF-8, modelling how JavaScript's URL machinery turns strings into
bytes and back (WHATWG "UTF-8 encode" / "UTF-8 decode"). -/

/-- UTF-8 encoding of a single code point (`n < 0x110000`). -/
def utf8EncodeCp (n : Nat) : List Nat :=
  if n < 0x80 then [n]
  else if n < 0x800 then [0xC0 + n / 64, 0x80 + n % 64]
  else if n < 0x10000 then [0xE0 + n / 4096, 0x80 + n / 64 % 64, 0x80 + n % 64]
  else [0xF0 + n / 262144, 0x80 + n / 4096 % 64, 0x80 + n / 64 % 64, 0x80 + n % 64]

def isContByte (b : Nat) : Bool := 0x80 ≤ b && b < 0xC0

/-- U+FFFD, emitted by the WHATWG decoder for invalid byte sequences. -/
def replacementCp : Nat := 0xFFFD

/-- The state machine of a UTF-8 decoder: `none` when no multi-byte sequence
is open, `some (k, acc)` when `k` continuation bytes are still expected and
`acc` is the value accumulated so far.  A lead byte whose continuation bytes
follow decodes to its code point; an invalid or truncated sequence emits
`replacementCp` (overlong forms are not rejected — the claims never evaluate
the decoder on bytes outside the image of `utf8EncodeCp`). -/
def utf8DecodeAux : Option (Nat × Nat) → List Nat → List Nat
  | none, [] => []
  | some _, [] => [replacementCp]
  | none, b :: rest =>
    if b < 0x80 then b :: utf8DecodeAux none rest
    else if 0xC0 ≤ b && b < 0xE0 then utf8DecodeAux (some (1, b - 0xC0)) rest
    else if 0xE0 ≤ b && b < 0xF0 then utf8DecodeAux (some (2, b - 0xE0)) rest
    else if 0xF0 ≤ b && b < 0xF8 then utf8DecodeAux (some (3, b - 0xF0)) rest
    else replacementCp :: utf8DecodeAux none rest
  | some (k, acc), b :: rest =>
    if isContByte b then
      if k ≤ 1 then (acc * 64 + (b - 0x80)) :: utf8DecodeAux none rest
      else utf8DecodeAux (some (k - 1, acc * 64 + (b - 0x80))) rest
    else replacementCp :: utf8DecodeAux none rest

/-- UTF-8 decoding to code points (WHATWG "UTF-8 decode"). -/
def utf8Decode (bs : List Nat) : List Nat := utf8DecodeAux none bs

/-! ## application/x-www-form-urlencoded (the `URLSearchParams` wire format) -/

/-- One percent-encoded byte, e.g. `0x3A ↦ "%3A"`. -/
def pctEncodeByte (b : Nat) : List Char :=
  ['%', hexDigitChar (b / 16), hexDigitChar (b % 16)]

/-- Characters the form-urlencoded serializer leaves as-is
(ASCII alphanumerics and `*`, `-`, `.`, `_`). -/
def isFormSafe (c : Char) : Bool :=
  isAsciiAlpha c || isAsciiDigit c || c = '*' || c = '-' || c = '.' || c = '_'

def formEncodeChar (c : Char) : List Char :=
  if isFormSafe c then [c]
  else if c = ' ' then ['+']
  else (utf8EncodeCp c.toNat).flatMap pctEncodeByte

def formEncodeList (cs : List Char) : List Char := cs.flatMap formEncodeChar

/-- Form-urlencoded percent-decoding down to bytes: `+` is a space, `%XX` is a
byte, any other character contributes its UTF-8 bytes; a `%` that is not
followed by two hex digits is kept literally (as the WHATWG parser does). -/
def formDecodeBytes : List Char → List Nat
  | [] => []
  | '+' :: rest => 0x20 :: formDecodeBytes rest
  | '%' :: h1 :: h2 :: rest2 =>
    if isHexDigit h1 && isHexDigit h2 then
      (16 * hexVal h1 + hexVal h2) :: formDecodeBytes rest2
    else utf8EncodeCp ('%').toNat ++ formDecodeBytes (h1 :: h2 :: rest2)
  | '%' :: rest => utf8EncodeCp ('%').toNat ++ formDecodeBytes rest
  | c :: rest => utf8EncodeCp c.toNat ++ formDecodeBytes rest

def formDecodeList (cs : List Char) : List Char :=
  (utf8Decode (formDecodeBytes cs)).map Char.ofNat

def formDecode (s : String) : String := ⟨formDecodeList s.data⟩

def formEncode (s : String) : String := ⟨formEncodeList s.data⟩

/-! ## Query-string serialization and parsing -/

/-- `xs.joinWith sep` with a list separator; the serialized pieces of a query
string are joined with `&`. -/
def joinWith (sep : List Char) : List (List Char) → List Char
  | [] => []
  | [x] => x
  | x :: xs => x ++ sep ++ joinWith sep xs

/-- One `key=value` piece of `URLSearchParams.toString()`. -/
def serializePair (p : String × String) : List Char :=
  formEncodeList p.1.data ++ '=' :: formEncodeList p.2.data

/-- Model of `new URLSearchParams(...).toString()` (insertion order kept). -/
def serializeQuery (ps : List (String × String)) : String :=
  ⟨joinWith ['&'] (ps.map serializePair)⟩

def splitOnChar (sep : Char) : List Char → List (List Char)
  | [] => [[]]
  | c :: rest =>
    let r := splitOnChar sep rest
    if c = sep then [] :: r
    else
      match r with
      | [] => [[c]]
      | h :: t => (c :: h) :: t

/-- One piece of a query string: split at the first `=`, then form-decode the
name and the value (a piece without `=` has value `""`). -/
def parsePiece (piece : List Char) : String × String :=
  (⟨formDecodeList (piece.takeWhile (· ≠ '='))⟩,
   ⟨formDecodeList ((piece.dropWhile (· ≠ '=')).drop 1)⟩)

/-- Model of the `URLSearchParams` parser: split on `&`, skip empty pieces,
split each piece at its first `=`, percent-decode names and values. -/
def parseQueryPairs (q : String) : List (String × String) :=
  ((splitOnChar '&' q.data).filter (· ≠ [])).map parsePiece

/-- Model of `searchParams.get k`: the value of the first pair named `k`,
or `null`. -/
def getParam (ps : List (String × String)) (k : String) : Option String :=
  (ps.find? (fun p => p.1 == k)).map (·.2)

/-- Model of `searchParams.set k v`: overwrite the first pair named `k` and
drop the other pairs named `k`; append if `k` is absent. -/
def setParam : List (String × String) → String → String → List (String × String)
  | [], k, v => [(k, v)]
  | p :: rest, k, v =>
    if p.1 == k then (k, v) :: rest.filter (fun q => !(q.1 == k))
    else p :: setParam rest k v

/-! ## JavaScript string primitives -/

/-- JS `pat.isPrefixOf s`-style check backing `String.prototype.startsWith`. -/
def jsStartsWith (s pre : String) : Bool := pre.data.isPrefixOf s.data

def listContains (hay pat : List Char) : Bool :=
  if pat.isPrefixOf hay then true
  else
    match hay with
    | [] => false
    | _ :: t => listContains t pat

/-- Model of `String.prototype.includes`. -/
def jsIncludes (s sub : String) : Bool := listContains s.data sub.data

def replaceFirstList (cs pat repl : List Char) : List Char :=
  if pat.isPrefixOf cs then repl ++ cs.drop pat.length
  else
    match cs with
    | [] => []
    | c :: rest => c :: replaceFirstList rest pat repl

/-- Model of `String.prototype.replace` with a string pattern: replace the
first occurrence of `pat` (the whole string is returned when `pat` does not
occur). -/
def replaceFirst (s pat repl : String) : String :=
  ⟨replaceFirstList s.data pat.data repl.data⟩

/-- Characters left alone by `encodeURIComponent`
(alphanumerics and `- _ . ! ~ * ' ( )`). -/
def isUriComponentSafe (c : Char) : Bool :=
  isAsciiAlpha c || isAsciiDigit c || c = '-' || c = '_' || c = '.' || c = '!' ||
    c = '~' || c = '*' || c = '\'' || c = '(' || c = ')'

/-- Model of `encodeURIComponent` (UTF-8 percent-encoding, no `+`). -/
def encodeURIComponentModel (s : String) : String :=
  ⟨s.data.flatMap fun c =>
    if isUriComponentSafe c then [c] else (utf8EncodeCp c.toNat).flatMap pctEncodeByte⟩

/-- Strict percent-decoding to bytes: a `%` not followed by two hex digits is
a `URIError` (`none`), other characters contribute their UTF-8 bytes. -/
def pctDecodeStrict : List Char → Option (List Nat)
  | [] => some []
  | '%' :: h1 :: h2 :: rest2 =>
    if isHexDigit h1 && isHexDigit h2 then
      (pctDecodeStrict rest2).map ((16 * hexVal h1 + hexVal h2) :: ·)
    else none
  | '%' :: _ => none
  | c :: rest => (pctDecodeStrict rest).map (utf8EncodeCp c.toNat ++ ·)

/-- Model of `decodeURIComponent`: `none` models the thrown `URIError`. -/
def decodeURIComponentModel (s : String) : Option String :=
  (pctDecodeStrict s.data).map fun bs => ⟨(utf8Decode bs).map Char.ofNat⟩

/-! ## The WHATWG `URL` constructor, to the extent the code consumes it -/

/-- Model of `new URL(s).searchParams` as an association list; `none` models
the constructor throwing.  The model accepts `scheme://authority[?query][#f]`
with a plain alphabetic scheme and a nonempty authority part and rejects
everything else; this matches the JS behaviour on every URL the flows build
(all of them are rewritten to `https://` first) while remaining decidable. -/
def parseURLQuery (s : String) : Option (List (String × String)) :=
  let cs := s.data
  let scheme := cs.takeWhile isAsciiAlpha
  let rest := cs.drop scheme.length
  if scheme.isEmpty then none
  else if rest.take 3 ≠ [':', '/', '/'] then none
  else
    let afterSS := rest.drop 3
    let hostPath := afterSS.takeWhile fun c => c ≠ '?' && c ≠ '#'
    if hostPath.isEmpty then none
    else
      match afterSS.drop hostPath.length with
      | '?' :: qf => some (parseQueryPairs ⟨qf.takeWhile (· ≠ '#')⟩)
      | _ => some []

/-! ## JavaScript truthiness on nullable strings -/

/-- `null` and `""` are falsy; used for `if (error)`, `a || b`, `if (!code)`. -/
def jsTruthy : Option String → Bool
  | none => false
  | some s => !(s == "")

/-- JS `a || b` on nullable strings. -/
def jsOrOpt (a b : Option String) : Option String := if jsTruthy a then a else b

/-! ## Configuration (`src/src/config/uaePassConfig.ts`) -/

inductive UAEPassEnvironment
  | staging
  | production
deriving DecidableEq, Repr

/-- `UAEPassConfig` (uaePassConfig.ts, lines 8-17); optional TS fields are
`Option`s. -/
structure UAEPassConfig where
  environment : UAEPassEnvironment
  clientId : String
  redirectUri : String
  authorizationEndpoint : String
  tokenEndpoint : Option String := none
  userInfoEndpoint : Option String := none
  scopes : Option (List String) := none
  channelName : Option String := none
deriving DecidableEq, Repr

/-- `DEFAULT_SCOPES` (uaePassConfig.ts, lines 43-45). -/
def DEFAULT_SCOPES : List String := ["urn:uae:digitalid:profile:general"]

/-- `UAE_PASS_ACR_VALUES` (uaePassConfig.ts, lines 48-64). -/
def ACR_LOW : String := "urn:safelayer:tws:policies:authentication:level:low"

def ACR_MOBILE_ON_DEVICE : String := "urn:digitalid:authentication:flow:mobileondevice"

def ACR_MEDIUM : String := "urn:safelayer:tws:policies:authentication:level:medium"

def ACR_HIGH : String := "urn:safelayer:tws:policies:authentication:level:high"

/-- `configureUAEPass` (uaePassConfig.ts, lines 87-102) acting on the
module-level `globalConfig` cell (`let globalConfig = null`), modelled as an
`Option UAEPassConfig` state passed explicitly.  `config.scopes ||
DEFAULT_SCOPES` defaults only an absent scope list (an empty array is truthy
in JS and is kept). -/
def configureUAEPass (_store : Option UAEPassConfig) (config : UAEPassConfig) :
    Option UAEPassConfig :=
  some { config with scopes := some (config.scopes.getD DEFAULT_SCOPES) }

/-- `getUAEPassConfig` (uaePassConfig.ts, lines 108-115); the thrown `Error`
is modelled with `Except`. -/
def getUAEPassConfig (store : Option UAEPassConfig) : Except String UAEPassConfig :=
  match store with
  | none =>
    .error "UAE Pass not configured. Please call configureUAEPass() first in your app initialization."
  | some config => .ok config

/-- A minimal staging configuration (used to exercise the configuration
store on concrete data). -/
def sampleConfigA : UAEPassConfig :=
  { environment := .staging
    clientId := "client-a"
    redirectUri := "appa://auth/uaepass"
    authorizationEndpoint := "https://stg-id.uaepass.ae/idshub/authorize" }

/-- A second configuration differing from `sampleConfigA` in its client id. -/
def sampleConfigB : UAEPassConfig :=
  { environment := .staging
    clientId := "client-b"
    redirectUri := "appa://auth/uaepass"
    authorizationEndpoint := "https://stg-id.uaepass.ae/idshub/authorize" }

/-! ## Result type (`src/unnamed/part_002`) -/

/-- `UAEPassAuthResult`; the `details?: any` field (only ever the raw caught
exception) is not modelled. -/
structure UAEPassAuthResult where
  success : Bool
  authorizationCode : Option String := none
  state : Option String := none
  codeVerifier : Option String := none
  error : Option String := none
deriving DecidableEq, Repr

/-- `UAEPassWebViewAuthParams` (`src/unnamed/part_002`). -/
structure UAEPassWebViewAuthParams where
  authUrl : String
  redirectUri : String
  state : String
  codeVerifier : String
  acrValue : String
  useWebView : Bool
deriving DecidableEq, Repr

/-! ## Security parameter generator (`src/unnamed/part_001`, lines 35-42) -/

/-- The `possible` alphabet of `generateCodeVerifier` (as written in the
source, which omits `w` and `x`). -/
def possibleChars : String :=
  "ABCDEFGHIJKLMNOPQRSTUVWXYZabcdefghijklmnopqrstuvyz0123456789-._~"

/-- `String.prototype.charAt`: one character, or the empty string when the
index is out of range. -/
def jsCharAt (s : String) (i : Nat) : List Char :=
  match s.data.drop i with
  | [] => []
  | c :: _ => [c]

/-- `generateCodeVerifier` (lines 35-42).  `draws i` models the `i`-th value
of `Math.floor(Math.random() * possible.length)`; `Math.random()` lies in
`[0, 1)`, so each draw is `< possible.length`. -/
def generateCodeVerifier (draws : Nat → Nat) : String :=
  ⟨(List.range 128).flatMap fun i => jsCharAt possibleChars (draws i)⟩

/-- The PKCE unreserved character set (RFC 7636 section 4.1). -/
def isPkceUnreserved (c : Char) : Bool :=
  isAsciiAlpha c || isAsciiDigit c || c = '-' || c = '.' || c = '_' || c = '~'

/-! ## Authorization URL builder (`src/unnamed/part_001`, lines 84-106) -/

structure AuthURLParams where
  clientId : String
  redirectUri : String
  scopes : List String
  acrValue : String
  state : String
deriving DecidableEq, Repr

/-- `buildAuthorizationURL` (lines 84-106): the authorization endpoint plus
the `URLSearchParams` serialization of the seven fixed keys, `scope` being
the scope list joined with single spaces. -/
def buildAuthorizationURL (config : UAEPassConfig) (params : AuthURLParams) : String :=
  config.authorizationEndpoint ++ "?" ++ serializeQuery
    [("response_type", "code"),
     ("client_id", params.clientId),
     ("redirect_uri", params.redirectUri),
     ("scope", String.intercalate " " params.scopes),
     ("state", params.state),
     ("acr_values", params.acrValue),
     ("ui_locales", "en")]

/-! ## Callback parser (`src/unnamed/part_001`, lines 113-167) -/

/-- `url.replace(/^[a-z]+:\/\//, 'https://')` (line 116): one or more
lower-case ASCII letters followed by `://`, at the start only. -/
def normalizeScheme (url : String) : String :=
  let cs := url.data
  let pre := cs.takeWhile isLowerAlpha
  let rest := cs.drop pre.length
  if pre.isEmpty then url
  else if rest.take 3 = [':', '/', '/'] then ⟨"https://".data ++ rest.drop 3⟩
  else url

/-- `parseCallbackURL` (lines 113-167).  The `try/catch` around `new URL` is
the `none` branch of `parseURLQuery`; `if (error)`, `errorDescription ||
error` and `if (!code)` use JS truthiness; the state comparison is strict
(`!==`), so a missing state never equals the expected one. -/
def parseCallbackURL (url : String) (expectedState : String) : UAEPassAuthResult :=
  match parseURLQuery (normalizeScheme url) with
  | none => { success := false, error := some "Failed to parse callback URL" }
  | some ps =>
    let code := getParam ps "code"
    let state := getParam ps "state"
    let error := getParam ps "error"
    let errorDescription := getParam ps "error_description"
    if jsTruthy error then
      { success := false, error := jsOrOpt errorDescription error }
    else if state ≠ some expectedState then
      { success := false, error := some "Invalid state parameter" }
    else if !jsTruthy code then
      { success := false, error := some "No authorization code received" }
    else
      { success := true, authorizationCode := code, state := state }

/-! ## Prepare-auth (`src/unnamed/part_001`, lines 182-221) -/

/-- `prepareUAEPassAuth` (lines 182-221).  The awaited collaborators are
explicit arguments: `appInstalled` is the value of
`isUAEPassAppInstalled()`, `state` and `codeVerifier` the generated security
parameters. -/
def prepareUAEPassAuth (config : UAEPassConfig) (appInstalled : Bool)
    (state codeVerifier : String) : UAEPassWebViewAuthParams :=
  let acrValue := if appInstalled then ACR_MOBILE_ON_DEVICE else ACR_LOW
  let authUrl := buildAuthorizationURL config
    { clientId := config.clientId
      redirectUri := config.redirectUri
      scopes := config.scopes.getD []
      acrValue := acrValue
      state := state }
  { authUrl := authUrl
    redirectUri := config.redirectUri
    state := state
    codeVerifier := codeVerifier
    acrValue := acrValue
    useWebView := appInstalled }

/-! ## The deep-link listener / timeout race

Both strategies build the same promise (`src/unnamed/part_001`, lines
238-265 and 343-373): a `Linking` URL listener armed before any launch, and
a 5-minute `setTimeout`.  The inbound deep links are modelled as a timeline
of `(milliseconds, url)` events in arrival order; the promise resolves with
the handler applied to the first event accepted by `isMatch` that arrives
strictly before the timeout, and with `timeoutResult` otherwise.  Both
resolution paths call `subscription.remove()`, recorded in
`listenerRemoved`. -/

structure PromiseResolution where
  result : UAEPassAuthResult
  listenerRemoved : Bool
deriving DecidableEq, Repr

def runDeepLinkPromise (events : List (Nat × String)) (timeoutMs : Nat)
    (isMatch : String → Bool) (handler : String → UAEPassAuthResult)
    (timeoutResult : UAEPassAuthResult) : PromiseResolution :=
  match events with
  | [] => ⟨timeoutResult, true⟩
  | (t, u) :: rest =>
    if timeoutMs ≤ t then ⟨timeoutResult, true⟩
    else if isMatch u then ⟨handler u, true⟩
    else runDeepLinkPromise rest timeoutMs isMatch handler timeoutResult

/-- `5 * 60 * 1000` (lines 264 and 372). -/
def TIMEOUT_MS : Nat := 5 * 60 * 1000

/-- Lines 246-248 and 353-355: on success the code verifier is attached to
the parsed result before resolving. -/
def addCodeVerifier (r : UAEPassAuthResult) (codeVerifier : String) : UAEPassAuthResult :=
  if r.success then { r with codeVerifier := some codeVerifier } else r

def browserTimeoutResult : UAEPassAuthResult :=
  { success := false, error := some "Authentication timeout" }

def appTimeoutResult : UAEPassAuthResult :=
  { success := false, error := some "Authentication timeout - UAE Pass app did not respond" }

/-- The browser promise (lines 238-265) resolves on every URL event. -/
def browserDeepLinkPromise (state codeVerifier : String)
    (events : List (Nat × String)) : PromiseResolution :=
  runDeepLinkPromise events TIMEOUT_MS (fun _ => true)
    (fun u => addCodeVerifier (parseCallbackURL u state) codeVerifier)
    browserTimeoutResult

/-- Line 348: the app promise only accepts events whose URL contains the
configured redirect URI or `code=`. -/
def appEventMatches (config : UAEPassConfig) (u : String) : Bool :=
  jsIncludes u config.redirectUri || jsIncludes u "code="

/-- The app promise (lines 343-373). -/
def appDeepLinkPromise (config : UAEPassConfig) (state codeVerifier : String)
    (events : List (Nat × String)) : PromiseResolution :=
  runDeepLinkPromise events TIMEOUT_MS (appEventMatches config)
    (fun u => addCodeVerifier (parseCallbackURL u state) codeVerifier)
    appTimeoutResult

/-! ## Browser strategy (`src/unnamed/part_001`, lines 229-307) -/

/-- The outcome of `WebBrowser.openAuthSessionAsync`. -/
inductive WebBrowserSessionResult
  | success (url : Option String)
  | cancel
  | dismiss
  | other
deriving DecidableEq, Repr

/-- External collaborators of the browser strategy: the auth-session outcome
and the deep-link event timeline. -/
structure BrowserEnv where
  sessionResult : WebBrowserSessionResult
  events : List (Nat × String)
deriving DecidableEq, Repr

/-- `authenticateWithUAEPassBrowser` (lines 229-307): a `success` outcome
with a URL is parsed immediately, `cancel` fails immediately, `dismiss` and
every other outcome await the deep-link promise. -/
def authenticateWithUAEPassBrowser (config : UAEPassConfig) (benv : BrowserEnv)
    (authUrl state codeVerifier : String) : UAEPassAuthResult :=
  match benv.sessionResult with
  | .success (some u) => addCodeVerifier (parseCallbackURL u state) codeVerifier
  | .success none => (browserDeepLinkPromise state codeVerifier benv.events).result
  | .cancel => { success := false, error := some "User cancelled authentication" }
  | .dismiss => (browserDeepLinkPromise state codeVerifier benv.events).result
  | .other => (browserDeepLinkPromise state codeVerifier benv.events).result

/-- `authenticateWithUAEPassBrowser` together with the state of the
deep-link subscription at the moment the function returns its result.  The
`success`-with-URL and `cancel` branches (lines 276-291) return without
removing the subscription — it is scoped inside the promise executor and
stays registered until the promise's own event or 5-minute timeout fires —
while the `dismiss` and other branches await the promise, whose resolution
removes it before the function returns. -/
def authenticateWithUAEPassBrowserTracked (config : UAEPassConfig)
    (benv : BrowserEnv) (authUrl state codeVerifier : String) : PromiseResolution :=
  match benv.sessionResult with
  | .success (some u) => ⟨addCodeVerifier (parseCallbackURL u state) codeVerifier, false⟩
  | .success none => browserDeepLinkPromise state codeVerifier benv.events
  | .cancel => ⟨{ success := false, error := some "User cancelled authentication" }, false⟩
  | .dismiss => browserDeepLinkPromise state codeVerifier benv.events
  | .other => browserDeepLinkPromise state codeVerifier benv.events

/-! ## Native-app launch strategy (`src/unnamed/part_001`, lines 314-445) -/

/-- `buildUAEPassAppDeepLink` (lines 314-328). -/
def buildUAEPassAppDeepLink (env : UAEPassEnvironment)
    (authUrl successUrl failureUrl : String) : String :=
  (if env = .production then "uaepass" else "uaepassstg") ++
    "://idshub/authorize?spUrl=" ++ encodeURIComponentModel authUrl ++
    "&successURL=" ++ encodeURIComponentModel successUrl ++
    "&failureURL=" ++ encodeURIComponentModel failureUrl

/-- Outcome of one awaited native call: it either returns or throws. -/
inductive JsCallOutcome
  | ok
  | thrown
deriving DecidableEq, Repr

/-- External collaborators of the native-app strategy.  `none` models a
native-module method that is not available
(`UAEPassModule?.openUAEPassWithIntent`), `some .thrown` a call that
throws. -/
structure NativeLaunchEnv where
  platformAndroid : Bool
  openUAEPassWithIntent : Option JsCallOutcome
  launchUAEPassApp : Option JsCallOutcome
  canOpenURL : Except Unit Bool
  openURL : JsCallOutcome
  events : List (Nat × String)
deriving Repr

/-- `authenticateWithUAEPassApp` (lines 333-445): the ordered attempt chain.
On Android, try `openUAEPassWithIntent`, then `launchUAEPassApp` (each only
if available, each `catch` falling through), then on every platform the
`Linking.canOpenURL`/`Linking.openURL` pair (its `try/catch` swallowing
either throw), and finally delegate to the browser strategy.  A launch that
succeeds awaits the deep-link promise. -/
def authenticateWithUAEPassApp (config : UAEPassConfig) (nenv : NativeLaunchEnv)
    (benv : BrowserEnv) (authUrl state codeVerifier : String) : UAEPassAuthResult :=
  let awaited := (appDeepLinkPromise config state codeVerifier nenv.events).result
  let linkingFallback :=
    match nenv.canOpenURL with
    | .ok true =>
      match nenv.openURL with
      | .ok => awaited
      | .thrown => authenticateWithUAEPassBrowser config benv authUrl state codeVerifier
    | .ok false => authenticateWithUAEPassBrowser config benv authUrl state codeVerifier
    | .error _ => authenticateWithUAEPassBrowser config benv authUrl state codeVerifier
  if nenv.platformAndroid then
    match nenv.openUAEPassWithIntent with
    | some .ok => awaited
    | _ =>
      match nenv.launchUAEPassApp with
      | some .ok => awaited
      | _ => linkingFallback
  else linkingFallback

/-! ## WebView interception bridge
(`src/src/components/UAEPassWebViewAuth.tsx`, lines 146-265) -/

/-- The component's `UAE_PASS_SCHEME` constant (line 56). -/
def uaePassScheme (env : UAEPassEnvironment) : String :=
  if env = .production then "uaepass://" else "uaepassstg://"

/-- `redirectUri.split('://')[0]`: the characters before the first `://`
(the whole string when `://` does not occur). -/
def beforeSchemeSep : List Char → List Char
  | ':' :: '/' :: '/' :: _ => []
  | c :: rest => c :: beforeSchemeSep rest
  | [] => []

/-- The component's `OUR_APP_SCHEME` constant (line 57). -/
def ourAppScheme (redirectUri : String) : String :=
  ⟨beforeSchemeSep redirectUri.data ++ [':', '/', '/']⟩

/-- The repeated staging-scheme substitution (lines 176-178, 219-221,
233-235, 246-248): in staging, a `uaepass://` URL is opened as
`uaepassstg://`. -/
def stagingSwap (env : UAEPassEnvironment) (u : String) : String :=
  if env = .staging && jsStartsWith u "uaepass://" then
    replaceFirst u "uaepass://" "uaepassstg://"
  else u

/-- Line 156: `.replace(UAE_PASS_SCHEME, 'https://').replace('uaepassstg://',
'https://').replace('uaepass://', 'https://')`. -/
def uaePassLinkNormalize (env : UAEPassEnvironment) (url : String) : String :=
  replaceFirst (replaceFirst (replaceFirst url (uaePassScheme env) "https://")
    "uaepassstg://" "https://") "uaepass://" "https://"

/-- `url.split('?')[0]`. -/
def beforeQuestionMark (s : String) : String := ⟨s.data.takeWhile (· ≠ '?')⟩

/-- `savedUrls` state (UAEPassWebViewAuth.tsx, lines 32-36). -/
structure SavedUrls where
  successURL : String
  failureURL : String
  originalUrl : String
deriving DecidableEq, Repr

/-- The component props the intercept handler reads. -/
structure WebViewCtx where
  env : UAEPassEnvironment
  redirectUri : String
deriving DecidableEq, Repr

/-- The observable effects of one `onShouldStartLoadWithRequest` call:
the returned boolean, the state setters invoked (`setSavedUrls`,
`setWaitingForCallback`), the URL handed to `Linking.openURL`, and the URL
handed to `parseAuthorizationCode`. -/
structure InterceptOutcome where
  allowLoad : Bool
  savedUrls : Option SavedUrls := none
  waitingForCallback : Bool := false
  openedUrl : Option String := none
  parsedCallbackUrl : Option String := none
deriving DecidableEq, Repr

/-- `handleShouldStartLoadWithRequest` (UAEPassWebViewAuth.tsx, lines
146-265).  The `try/catch` around the URL parse and the two
`decodeURIComponent` calls is modelled by the `none` branches (the `catch`
opens the raw, staging-swapped URL and vetoes); `successURL ||
successurl` and the `if (successURL && ...)` guards use JS truthiness. -/
def handleShouldStartLoadWithRequest (ctx : WebViewCtx) (url : String) : InterceptOutcome :=
  let scheme := uaePassScheme ctx.env
  let appScheme := ourAppScheme ctx.redirectUri
  if jsStartsWith url scheme || jsStartsWith url "uaepassstg://" ||
      jsStartsWith url "uaepass://" then
    match parseURLQuery (uaePassLinkNormalize ctx.env url) with
    | none => { allowLoad := false, openedUrl := some (stagingSwap ctx.env url) }
    | some ps =>
      let successURL := jsOrOpt (getParam ps "successURL") (getParam ps "successurl")
      let failureURL := jsOrOpt (getParam ps "failureURL") (getParam ps "failureurl")
      if jsTruthy successURL && jsIncludes (successURL.getD "") appScheme then
        { allowLoad := false
          waitingForCallback := true
          openedUrl := some (stagingSwap ctx.env url) }
      else if jsTruthy successURL && jsTruthy failureURL then
        match decodeURIComponentModel (successURL.getD ""),
            decodeURIComponentModel (failureURL.getD "") with
        | some decodedSuccess, some decodedFailure =>
          let ourSuccessCallback :=
            appScheme ++ "auth/uaepass/resume?url=" ++
              encodeURIComponentModel (successURL.getD "")
          let ourFailureCallback :=
            appScheme ++ "auth/uaepass/resume?url=" ++
              encodeURIComponentModel (failureURL.getD "")
          let rewrittenPairs :=
            setParam (setParam (setParam (setParam ps
              "successURL" ourSuccessCallback)
              "failureURL" ourFailureCallback)
              "successurl" ourSuccessCallback)
              "failureurl" ourFailureCallback
          let rewrittenUrl :=
            beforeQuestionMark url ++ "?" ++ serializeQuery rewrittenPairs
          { allowLoad := false
            savedUrls := some ⟨decodedSuccess, decodedFailure, url⟩
            waitingForCallback := true
            openedUrl := some (stagingSwap ctx.env rewrittenUrl) }
        | _, _ => { allowLoad := false, openedUrl := some (stagingSwap ctx.env url) }
      else
        { allowLoad := false, openedUrl := some (stagingSwap ctx.env url) }
  else if jsStartsWith url ctx.redirectUri ||
      jsIncludes url (replaceFirst ctx.redirectUri appScheme "") then
    { allowLoad := false, parsedCallbackUrl := some url }
  else
    { allowLoad := true }

/-- The characters after the first `?` (for inspecting the query of a URL
the handler emitted). -/
def afterQuestionMark (s : String) : String :=
  ⟨((s.data.dropWhile (· ≠ '?')).drop 1)⟩

/-! ## Roundtrip lemmas for the encoding layer -/

theorem utf8EncodeCp_lt256 (n : Nat) (h : n < 0x110000) :
    ∀ b ∈ utf8EncodeCp n, b < 256 := by
  intro b hb
  unfold utf8EncodeCp at hb
  split at hb
  · simp only [List.mem_singleton] at hb
    omega
  · split at hb
    · simp only [List.mem_cons, List.mem_singleton, List.not_mem_nil, or_false] at hb
      rcases hb with rfl | rfl <;> omega
    · split at hb
      · simp only [List.mem_cons, List.mem_singleton, List.not_mem_nil, or_false] at hb
        rcases hb with rfl | rfl | rfl <;> omega
      · simp only [List.mem_cons, List.mem_singleton, List.not_mem_nil, or_false] at hb
        rcases hb with rfl | rfl | rfl | rfl <;> omega

theorem utf8Decode_encode (n : Nat) (h : n < 0x110000) (rest : List Nat) :
    utf8Decode (utf8EncodeCp n ++ rest) = n :: utf8Decode rest := by
  unfold utf8Decode utf8EncodeCp
  by_cases h1 : n < 0x80
  · rw [if_pos h1, List.cons_append, List.nil_append, utf8DecodeAux, if_pos h1]
  · rw [if_neg h1]
    by_cases h2 : n < 0x800
    · rw [if_pos h2, List.cons_append, List.cons_append, List.nil_append,
        utf8DecodeAux]
      rw [if_neg (by omega)]
      rw [if_pos (by simp only [Bool.and_eq_true, decide_eq_true_eq]; omega)]
      rw [utf8DecodeAux]
      rw [if_pos (by simp only [isContByte, Bool.and_eq_true, decide_eq_true_eq]; omega)]
      rw [if_pos (by omega)]
      congr 1
      omega
    · rw [if_neg h2]
      by_cases h3 : n < 0x10000
      · rw [if_pos h3, List.cons_append, List.cons_append, List.cons_append,
          List.nil_append, utf8DecodeAux]
        rw [if_neg (by omega)]
        rw [if_neg (by simp only [Bool.and_eq_true, decide_eq_true_eq, not_and]; omega)]
        rw [if_pos (by simp only [Bool.and_eq_true, decide_eq_true_eq]; omega)]
        rw [utf8DecodeAux]
        rw [if_pos (by simp only [isContByte, Bool.and_eq_true, decide_eq_true_eq]; omega)]
        rw [if_neg (by omega)]
        rw [utf8DecodeAux]
        rw [if_pos (by simp only [isContByte, Bool.and_eq_true, decide_eq_true_eq]; omega)]
        rw [if_pos (by omega)]
        congr 1
        omega
      · rw [if_neg h3, List.cons_append, List.cons_append, List.cons_append,
          List.cons_append, List.nil_append, utf8DecodeAux]
        rw [if_neg (by omega)]
        rw [if_neg (by simp only [Bool.and_eq_true, decide_eq_true_eq, not_and]; omega)]
        rw [if_neg (by simp only [Bool.and_eq_true, decide_eq_true_eq, not_and]; omega)]
        rw [if_pos (by simp only [Bool.and_eq_true, decide_eq_true_eq]; omega)]
        rw [utf8DecodeAux]
        rw [if_pos (by simp only [isContByte, Bool.and_eq_true, decide_eq_true_eq]; omega)]
        rw [if_neg (by omega)]
        rw [utf8DecodeAux]
        rw [if_pos (by simp only [isContByte, Bool.and_eq_true, decide_eq_true_eq]; omega)]
        rw [if_neg (by omega)]
        rw [utf8DecodeAux]
        rw [if_pos (by simp only [isContByte, Bool.and_eq_true, decide_eq_true_eq]; omega)]
        rw [if_pos (by omega)]
        congr 1
        omega

theorem hexDigitChar_roundtrip :
    ∀ m, m < 16 → isHexDigit (hexDigitChar m) = true ∧ hexVal (hexDigitChar m) = m := by
  decide

theorem formDecodeBytes_pctEncodeByte (b : Nat) (h : b < 256) (rest : List Char) :
    formDecodeBytes (pctEncodeByte b ++ rest) = b :: formDecodeBytes rest := by
  have h1 := hexDigitChar_roundtrip (b / 16) (by omega)
  have h2 := hexDigitChar_roundtrip (b % 16) (by omega)
  rw [pctEncodeByte, List.cons_append, List.cons_append, List.cons_append,
    List.nil_append, formDecodeBytes]
  rw [if_pos (by rw [h1.1, h2.1]; rfl)]
  congr 1
  rw [h1.2, h2.2]
  omega

theorem formDecodeBytes_flatMap_pct (bs : List Nat) (h : ∀ b ∈ bs, b < 256)
    (rest : List Char) :
    formDecodeBytes (bs.flatMap pctEncodeByte ++ rest) = bs ++ formDecodeBytes rest := by
  induction bs with
  | nil => simp
  | cons b bs ih =>
    rw [List.flatMap_cons, List.append_assoc,
      formDecodeBytes_pctEncodeByte b (h b (by simp)), List.cons_append]
    rw [ih (fun x hx => h x (by simp [hx]))]

theorem char_toNat_lt (c : Char) : c.toNat < 0x110000 := by
  have h := c.valid
  unfold UInt32.isValidChar Nat.isValidChar at h
  have : c.toNat = c.val.toNat := rfl
  rw [this]
  rcases h with h | ⟨h1, h2⟩ <;> omega

theorem isFormSafe_not_special (c : Char) (h : isFormSafe c = true) :
    c ≠ '+' ∧ c ≠ '%' := by
  constructor
  · intro he; subst he; simp [isFormSafe, isAsciiAlpha, isAsciiDigit] at h
  · intro he; subst he; simp [isFormSafe, isAsciiAlpha, isAsciiDigit] at h

theorem formDecodeBytes_encodeChar (c : Char) (rest : List Char) :
    formDecodeBytes (formEncodeChar c ++ rest) =
      utf8EncodeCp c.toNat ++ formDecodeBytes rest := by
  unfold formEncodeChar
  by_cases hs : isFormSafe c = true
  · rw [if_pos hs, List.cons_append, List.nil_append]
    have hns := isFormSafe_not_special c hs
    rw [formDecodeBytes]
    · exact fun hc => hns.1 hc
    · exact fun _ _ _ hc _ => hns.2 hc
    · exact fun hc => hns.2 hc
  · rw [if_neg hs]
    by_cases hsp : c = ' '
    · subst hsp
      rw [if_pos rfl, List.cons_append, List.nil_append, formDecodeBytes]
      rfl
    · rw [if_neg hsp]
      exact formDecodeBytes_flatMap_pct _ (utf8EncodeCp_lt256 _ (char_toNat_lt c)) rest

theorem formDecodeBytes_encodeList (cs rest : List Char) :
    formDecodeBytes (formEncodeList cs ++ rest) =
      cs.flatMap (fun c => utf8EncodeCp c.toNat) ++ formDecodeBytes rest := by
  induction cs with
  | nil => simp [formEncodeList]
  | cons c cs ih =>
    rw [formEncodeList, List.flatMap_cons, List.append_assoc, formDecodeBytes_encodeChar,
      List.flatMap_cons, List.append_assoc]
    rw [show cs.flatMap formEncodeChar = formEncodeList cs from rfl, ih]

theorem utf8Decode_flatMap_encode (cs : List Char) (rest : List Nat) :
    utf8Decode (cs.flatMap (fun c => utf8EncodeCp c.toNat) ++ rest) =
      cs.map Char.toNat ++ utf8Decode rest := by
  induction cs with
  | nil => simp
  | cons c cs ih =>
    rw [List.flatMap_cons, List.append_assoc, utf8Decode_encode _ (char_toNat_lt c),
      List.map_cons, List.cons_append, ih]

theorem formDecodeBytes_nil : formDecodeBytes [] = [] := rfl

theorem utf8Decode_nil : utf8Decode [] = [] := rfl

theorem formDecodeList_encodeList (cs : List Char) :
    formDecodeList (formEncodeList cs) = cs := by
  unfold formDecodeList
  have h1 := formDecodeBytes_encodeList cs []
  rw [List.append_nil, formDecodeBytes_nil, List.append_nil] at h1
  have h2 := utf8Decode_flatMap_encode cs []
  rw [List.append_nil, utf8Decode_nil, List.append_nil] at h2
  rw [h1, h2, List.map_map]
  have hid : Char.ofNat ∘ Char.toNat = id := funext Char.ofNat_toNat
  rw [hid, List.map_id]

theorem formDecode_formEncode (s : String) : formDecode (formEncode s) = s := by
  unfold formDecode formEncode
  rw [show (String.mk (formEncodeList s.data)).data = formEncodeList s.data from rfl,
    formDecodeList_encodeList]

/-! ## The serializer's output never contains a bare `&` or `=` -/

theorem hexDigitChar_ne_special :
    ∀ m, m < 16 → hexDigitChar m ≠ '&' ∧ hexDigitChar m ≠ '=' := by
  decide

theorem formEncodeChar_ne_special (c : Char) :
    ∀ d ∈ formEncodeChar c, d ≠ '&' ∧ d ≠ '=' := by
  intro d hd
  unfold formEncodeChar at hd
  by_cases hs : isFormSafe c = true
  · rw [if_pos hs, List.mem_singleton] at hd
    subst hd
    constructor
    · intro he; subst he; simp [isFormSafe, isAsciiAlpha, isAsciiDigit] at hs
    · intro he; subst he; simp [isFormSafe, isAsciiAlpha, isAsciiDigit] at hs
  · rw [if_neg hs] at hd
    by_cases hsp : c = ' '
    · rw [if_pos hsp, List.mem_singleton] at hd
      subst hd
      exact ⟨by decide, by decide⟩
    · rw [if_neg hsp] at hd
      rw [List.mem_flatMap] at hd
      obtain ⟨b, hb, hdb⟩ := hd
      have hb256 := utf8EncodeCp_lt256 _ (char_toNat_lt c) b hb
      unfold pctEncodeByte at hdb
      simp only [List.mem_cons, List.mem_singleton, List.not_mem_nil, or_false] at hdb
      rcases hdb with rfl | rfl | rfl
      · exact ⟨by decide, by decide⟩
      · exact hexDigitChar_ne_special (b / 16) (by omega)
      · exact hexDigitChar_ne_special (b % 16) (by omega)

theorem formEncodeList_ne_special (cs : List Char) :
    ∀ d ∈ formEncodeList cs, d ≠ '&' ∧ d ≠ '=' := by
  intro d hd
  unfold formEncodeList at hd
  rw [List.mem_flatMap] at hd
  obtain ⟨c, _, hdc⟩ := hd
  exact formEncodeChar_ne_special c d hdc

theorem serializePair_no_amp (p : String × String) :
    ∀ d ∈ serializePair p, d ≠ '&' := by
  intro d hd
  unfold serializePair at hd
  rw [List.mem_append] at hd
  rcases hd with hd | hd
  · exact (formEncodeList_ne_special _ d hd).1
  · rw [List.mem_cons] at hd
    rcases hd with rfl | hd
    · decide
    · exact (formEncodeList_ne_special _ d hd).1

theorem serializePair_ne_nil (p : String × String) : serializePair p ≠ [] := by
  unfold serializePair
  simp

/-! ## Splitting a joined query string recovers the pieces -/

theorem splitOnChar_no_sep (sep : Char) (xs : List Char) (h : ∀ c ∈ xs, c ≠ sep) :
    splitOnChar sep xs = [xs] := by
  induction xs with
  | nil => rfl
  | cons c rest ih =>
    rw [splitOnChar]
    have hr := ih fun d hd => h d (by simp [hd])
    rw [hr, if_neg (h c (by simp))]

theorem splitOnChar_append_sep (sep : Char) (xs ys : List Char)
    (h : ∀ c ∈ xs, c ≠ sep) :
    splitOnChar sep (xs ++ sep :: ys) = xs :: splitOnChar sep ys := by
  induction xs with
  | nil =>
    rw [List.nil_append, splitOnChar, if_pos rfl]
  | cons c rest ih =>
    rw [List.cons_append, splitOnChar]
    have hr := ih fun d hd => h d (by simp [hd])
    rw [hr, if_neg (h c (by simp))]

theorem splitOnChar_joinWith (pieces : List (List Char))
    (h : ∀ p ∈ pieces, ∀ c ∈ p, c ≠ '&') (hne : pieces ≠ []) :
    splitOnChar '&' (joinWith ['&'] pieces) = pieces := by
  induction pieces with
  | nil => exact absurd rfl hne
  | cons p ps ih =>
    cases ps with
    | nil =>
      rw [joinWith]
      exact splitOnChar_no_sep '&' p (h p (by simp))
    | cons q qs =>
      rw [joinWith, List.append_assoc, List.singleton_append,
        splitOnChar_append_sep '&' p _ (h p (by simp))]
      rw [ih (fun r hr c hc => h r (by simp [hr]) c hc) (List.cons_ne_nil q qs)]
      exact List.cons_ne_nil q qs

theorem takeWhile_append_eq (sep : Char) (xs ys : List Char) (h : ∀ c ∈ xs, c ≠ sep) :
    (xs ++ sep :: ys).takeWhile (fun c => c ≠ sep) = xs ∧
      (xs ++ sep :: ys).dropWhile (fun c => c ≠ sep) = sep :: ys := by
  induction xs with
  | nil =>
    constructor
    · rw [List.nil_append]
      simp [List.takeWhile_cons]
    · rw [List.nil_append]
      simp [List.dropWhile_cons]
  | cons c rest ih =>
    have hih := ih fun d hd => h d (by simp [hd])
    have hc : (decide (c ≠ sep)) = true := by
      simp [h c (by simp)]
    constructor
    · rw [List.cons_append]
      simp only [List.takeWhile_cons, hc, if_true]
      rw [hih.1]
    · rw [List.cons_append]
      simp only [List.dropWhile_cons, hc, if_true]
      rw [hih.2]

theorem parsePiece_serializePair (p : String × String) :
    parsePiece (serializePair p) = p := by
  unfold parsePiece serializePair
  have h := takeWhile_append_eq '=' (formEncodeList p.1.data) (formEncodeList p.2.data)
    (fun c hc => (formEncodeList_ne_special _ c hc).2)
  rw [h.1, h.2, List.drop_succ_cons, List.drop_zero, formDecodeList_encodeList,
    formDecodeList_encodeList]

theorem parseQueryPairs_serializeQuery (ps : List (String × String)) :
    parseQueryPairs (serializeQuery ps) = ps := by
  cases ps with
  | nil => rfl
  | cons p ps =>
    unfold parseQueryPairs serializeQuery
    rw [show (String.mk (joinWith ['&'] ((p :: ps).map serializePair))).data =
      joinWith ['&'] ((p :: ps).map serializePair) from rfl]
    rw [splitOnChar_joinWith _ (by
        intro q hq c hc
        rw [List.mem_map] at hq
        obtain ⟨r, _, rfl⟩ := hq
        exact serializePair_no_amp r c hc)
      (by simp)]
    rw [List.filter_eq_self.mpr (by
      intro q hq
      rw [List.mem_map] at hq
      obtain ⟨r, _, rfl⟩ := hq
      simpa using serializePair_ne_nil r)]
    rw [List.map_map]
    have : parsePiece ∘ serializePair = id := funext parsePiece_serializePair
    rw [this, List.map_id]

/-! ## `getParam` / `setParam` interaction -/

theorem getParam_nil (k : String) : getParam [] k = none := rfl

theorem getParam_cons (p : String × String) (rest : List (String × String))
    (k : String) :
    getParam (p :: rest) k = if p.1 = k then some p.2 else getParam rest k := by
  by_cases hb : p.1 = k
  · rw [if_pos hb]
    unfold getParam
    rw [List.find?_cons_of_pos _ (by simp [hb])]
    rfl
  · rw [if_neg hb]
    unfold getParam
    rw [List.find?_cons_of_neg _ (by simp [hb])]

theorem getParam_setParam_same (ps : List (String × String)) (k v : String) :
    getParam (setParam ps k v) k = some v := by
  induction ps with
  | nil => rw [setParam, getParam_cons, if_pos rfl]
  | cons p rest ih =>
    rw [setParam]
    by_cases hp : p.1 = k
    · rw [if_pos (by simp [hp]), getParam_cons, if_pos rfl]
    · rw [if_neg (by simp [hp]), getParam_cons, if_neg hp]
      exact ih

theorem getParam_filter_ne (ps : List (String × String)) (k k' : String) (h : k ≠ k') :
    getParam (ps.filter fun q => !(q.1 == k')) k = getParam ps k := by
  induction ps with
  | nil => rfl
  | cons p rest ih =>
    by_cases hp : p.1 = k'
    · rw [List.filter_cons_of_neg (by simp [hp])]
      rw [ih, getParam_cons, if_neg (by rw [hp]; exact Ne.symm h)]
    · rw [List.filter_cons_of_pos (by simp [hp])]
      rw [getParam_cons, getParam_cons]
      by_cases hb : p.1 = k
      · rw [if_pos hb, if_pos hb]
      · rw [if_neg hb, if_neg hb]
        exact ih

theorem getParam_setParam_ne (ps : List (String × String)) (k k' v : String)
    (h : k ≠ k') :
    getParam (setParam ps k' v) k = getParam ps k := by
  induction ps with
  | nil =>
    rw [setParam, getParam_cons, if_neg (Ne.symm h)]
  | cons p rest ih =>
    rw [setParam]
    by_cases hp : p.1 = k'
    · rw [if_pos (by simp [hp]), getParam_cons, if_neg (Ne.symm h), getParam_cons,
        if_neg (by rw [hp]; exact Ne.symm h)]
      exact getParam_filter_ne rest k k' h
    · rw [if_neg (by simp [hp]), getParam_cons, getParam_cons]
      by_cases hb : p.1 = k
      · rw [if_pos hb, if_pos hb]
      · rw [if_neg hb, if_neg hb]
        exact ih

/-! ## Prefix and membership helpers -/

theorem isPrefixOf_append_self (l t : List Char) : l.isPrefixOf (l ++ t) = true := by
  induction l with
  | nil => simp [List.isPrefixOf]
  | cons c cs ih => simp [List.isPrefixOf, ih]

theorem jsStartsWith_append (s t : String) : jsStartsWith (s ++ t) s = true := by
  unfold jsStartsWith
  rw [String.data_append]
  exact isPrefixOf_append_self s.data t.data

theorem mem_replaceFirstList (cs pat repl : List Char) (c : Char)
    (h : c ∈ replaceFirstList cs pat repl) : c ∈ cs ∨ c ∈ repl := by
  induction cs with
  | nil =>
    rw [replaceFirstList] at h
    by_cases hp : pat.isPrefixOf ([] : List Char) = true
    · rw [if_pos hp] at h
      rw [List.mem_append] at h
      rcases h with h | h
      · exact .inr h
      · exact .inl (List.mem_of_mem_drop h)
    · rw [if_neg hp] at h
      simp at h
  | cons d rest ih =>
    rw [replaceFirstList] at h
    by_cases hp : pat.isPrefixOf (d :: rest) = true
    · rw [if_pos hp] at h
      rw [List.mem_append] at h
      rcases h with h | h
      · exact .inr h
      · exact .inl (List.mem_of_mem_drop h)
    · rw [if_neg hp] at h
      rw [List.mem_cons] at h
      rcases h with rfl | h
      · exact .inl (by simp)
      · rcases ih h with h | h
        · exact .inl (by simp [h])
        · exact .inr h

theorem beforeQuestionMark_no_q (s : String) :
    ∀ c ∈ (beforeQuestionMark s).data, c ≠ '?' := by
  intro c hc
  unfold beforeQuestionMark at hc
  rw [show (String.mk (s.data.takeWhile (· ≠ '?'))).data =
    s.data.takeWhile (· ≠ '?') from rfl] at hc
  have := List.mem_takeWhile_imp hc
  simpa using this

theorem afterQuestionMark_append (x q : String) (h : ∀ c ∈ x.data, c ≠ '?') :
    afterQuestionMark (x ++ "?" ++ q) = q := by
  unfold afterQuestionMark
  rw [String.data_append, String.data_append, List.append_assoc]
  rw [show ("?" : String).data ++ q.data = '?' :: q.data from rfl]
  rw [(takeWhile_append_eq '?' x.data q.data h).2, List.drop_succ_cons, List.drop_zero]

/-! ## Resolution of the deep-link / timeout race -/

theorem runDeepLinkPromise_timeout (events : List (Nat × String)) (timeoutMs : Nat)
    (isMatch : String → Bool) (handler : String → UAEPassAuthResult)
    (timeoutResult : UAEPassAuthResult)
    (hev : ∀ e ∈ events, isMatch e.2 = true → timeoutMs ≤ e.1) :
    runDeepLinkPromise events timeoutMs isMatch handler timeoutResult =
      ⟨timeoutResult, true⟩ := by
  induction events with
  | nil => rfl
  | cons e rest ih =>
    obtain ⟨t, u⟩ := e
    rw [runDeepLinkPromise]
    by_cases ht : timeoutMs ≤ t
    · rw [if_pos ht]
    · rw [if_neg ht]
      have hm : isMatch u = false := by
        cases hm : isMatch u with
        | true => exact absurd (hev (t, u) (by simp) hm) ht
        | false => rfl
      rw [if_neg (by simp [hm])]
      exact ih fun e he hm => hev e (by simp [he]) hm

theorem runDeepLinkPromise_first (t : Nat) (u : String) (rest : List (Nat × String))
    (timeoutMs : Nat) (isMatch : String → Bool)
    (handler : String → UAEPassAuthResult) (timeoutResult : UAEPassAuthResult)
    (ht : t < timeoutMs) (hm : isMatch u = true) :
    runDeepLinkPromise ((t, u) :: rest) timeoutMs isMatch handler timeoutResult =
      ⟨handler u, true⟩ := by
  rw [runDeepLinkPromise, if_neg (by omega), if_pos hm]

theorem jsTruthy_some_ne (s : String) (h : s ≠ "") : jsTruthy (some s) = true := by
  simp [jsTruthy, h]

theorem jsOrOpt_of_truthy (a b : Option String) (h : jsTruthy a = true) :
    jsOrOpt a b = a := by
  unfold jsOrOpt
  rw [if_pos h]

/-! ## Claim theorems -/

/-- Claim C10 (confirmed): `parseCallbackURL` is total — in this embedding it
is a Lean function, so it returns a `UAEPassAuthResult` on every input and
never throws — and whenever the input does not parse as a URL after scheme
normalization (the modelled `new URL` throwing), the result is the failure
with message "Failed to parse callback URL", the `catch` branch being the
only path taken for unparseable input. -/
theorem parseCallbackURL_total_unparseable (url expectedState : String)
    (h : parseURLQuery (normalizeScheme url) = none) :
    parseCallbackURL url expectedState =
      { success := false, error := some "Failed to parse callback URL" } := by
  unfold parseCallbackURL
  rw [h]

/-- Witness for C10: "not a url" does not parse, and the parser returns the
parse-failure result on it. -/
theorem parseCallbackURL_total_unparseable_witness :
    parseURLQuery (normalizeScheme "not a url") = none ∧
      parseCallbackURL "not a url" "s" =
        { success := false, error := some "Failed to parse callback URL" } :=
  ⟨by decide, parseCallbackURL_total_unparseable "not a url" "s" (by decide)⟩

/-- Claim C2 (confirmed): a callback URL that parses, carries no `error`
parameter, and whose `state` parameter differs from the expected state is
rejected with the state-mismatch failure (message "Invalid state parameter"
in the code, the spec's "invalid state") and is never a success, regardless
of any `code` parameter present. -/
theorem parseCallbackURL_state_mismatch (url expectedState st : String)
    (ps : List (String × String))
    (hps : parseURLQuery (normalizeScheme url) = some ps)
    (herr : getParam ps "error" = none)
    (hst : getParam ps "state" = some st)
    (hne : st ≠ expectedState) :
    parseCallbackURL url expectedState =
      { success := false, error := some "Invalid state parameter" } := by
  unfold parseCallbackURL
  rw [hps]
  dsimp only
  rw [herr, hst]
  rw [if_neg (by decide)]
  rw [if_pos (by simp [hne])]

/-- Witness for C2: a mismatched state with a non-empty code yields the
state-mismatch failure. -/
theorem parseCallbackURL_state_mismatch_witness :
    parseURLQuery (normalizeScheme "myapp://cb?code=abc&state=t") =
        some [("code", "abc"), ("state", "t")] ∧
      parseCallbackURL "myapp://cb?code=abc&state=t" "s" =
        { success := false, error := some "Invalid state parameter" } :=
  ⟨by decide,
    parseCallbackURL_state_mismatch "myapp://cb?code=abc&state=t" "s" "t"
      [("code", "abc"), ("state", "t")] (by decide) (by decide) (by decide)
      (by decide)⟩

/-- Claim C1 counterexample: the claim asserts that any callback URL whose
query contains an `error` parameter yields a failure whose message is
`error_description` when that parameter is present and `error` otherwise.
At `myapp://cb?error=&state=s&code=abc` (with expected state `s`) the query
contains `error` (with empty value), yet the parser returns success — the
JS truthiness check `if (error)` skips the error branch for an
empty-valued parameter. -/
theorem parseCallbackURL_error_claim_cex :
    parseURLQuery (normalizeScheme "myapp://cb?error=&state=s&code=abc") =
        some [("error", ""), ("state", "s"), ("code", "abc")] ∧
      parseCallbackURL "myapp://cb?error=&state=s&code=abc" "s" =
        { success := true, authorizationCode := some "abc", state := some "s" } := by
  constructor
  · decide
  · decide

/-- Claim C1 (corrected): for every callback URL that parses after scheme
normalization and whose query contains an `error` parameter with a
NON-EMPTY value, `parseCallbackURL` fails with message `error_description`
when that parameter is present with a non-empty value and with message
`error` otherwise, regardless of `state`, `code`, and the expected state —
the error check precedes the state check. -/
theorem parseCallbackURL_reports_idp_error (url expectedState : String)
    (ps : List (String × String)) (e : String)
    (hps : parseURLQuery (normalizeScheme url) = some ps)
    (he : getParam ps "error" = some e) (hne : e ≠ "") :
    parseCallbackURL url expectedState =
      { success := false,
        error := some (match getParam ps "error_description" with
          | some d => if d = "" then e else d
          | none => e) } := by
  unfold parseCallbackURL
  rw [hps]
  dsimp only
  rw [he]
  rw [if_pos (jsTruthy_some_ne e hne)]
  cases hd : getParam ps "error_description" with
  | none => simp [jsOrOpt, jsTruthy]
  | some d =>
    by_cases hde : d = ""
    · subst hde
      simp [jsOrOpt, jsTruthy]
    · simp [jsOrOpt, jsTruthy, hde]

/-- Witness for C1 (corrected): an `error` with a non-empty
`error_description` fails with the description, before any state check
(the state in the URL matches nothing). -/
theorem parseCallbackURL_reports_idp_error_witness :
    parseURLQuery (normalizeScheme "myapp://cb?error=access_denied&error_description=Denied&state=x&code=y") =
        some [("error", "access_denied"), ("error_description", "Denied"),
          ("state", "x"), ("code", "y")] ∧
      parseCallbackURL "myapp://cb?error=access_denied&error_description=Denied&state=x&code=y" "s" =
        { success := false, error := some "Denied" } :=
  ⟨by decide,
    parseCallbackURL_reports_idp_error
      "myapp://cb?error=access_denied&error_description=Denied&state=x&code=y" "s"
      [("error", "access_denied"), ("error_description", "Denied"),
        ("state", "x"), ("code", "y")]
      "access_denied" (by decide) (by decide) (by decide)⟩

/-- Claim C4 (confirmed): `prepareUAEPassAuth` returns `useWebView` equal to
the app-detection result, with the mobile-on-device ACR exactly when the
app was detected and the low ACR otherwise. -/
theorem prepareUAEPassAuth_detection (config : UAEPassConfig)
    (state codeVerifier : String) :
    ((prepareUAEPassAuth config false state codeVerifier).useWebView = false ∧
        (prepareUAEPassAuth config false state codeVerifier).acrValue = ACR_LOW) ∧
      ((prepareUAEPassAuth config true state codeVerifier).useWebView = true ∧
        (prepareUAEPassAuth config true state codeVerifier).acrValue =
          ACR_MOBILE_ON_DEVICE) :=
  ⟨⟨rfl, rfl⟩, ⟨rfl, rfl⟩⟩

/-- Claim C9 counterexample: the claim asserts the stored configuration is
immutable once set.  Configuring with `sampleConfigA` and then again with
`sampleConfigB` changes the configuration observed by `getUAEPassConfig`
(the second call overwrites the module-level cell). -/
theorem configureUAEPass_overwrites_cex :
    getUAEPassConfig (configureUAEPass (configureUAEPass none sampleConfigA)
        sampleConfigB) =
      .ok { sampleConfigB with scopes := some DEFAULT_SCOPES } ∧
    getUAEPassConfig (configureUAEPass none sampleConfigA) =
      .ok { sampleConfigA with scopes := some DEFAULT_SCOPES } ∧
    ({ sampleConfigB with scopes := some DEFAULT_SCOPES } : UAEPassConfig) ≠
      { sampleConfigA with scopes := some DEFAULT_SCOPES } := by
  refine ⟨rfl, rfl, ?_⟩
  decide

/-- Claim C9 (corrected): the configuration store is last-write-wins — every
`configureUAEPass` call replaces the stored configuration (defaulting only
an absent scope list) — and while it is unset, `getUAEPassConfig` fails
fast with the configuration error instead of silently defaulting. -/
theorem uaePassConfig_store_spec :
    (∀ (store : Option UAEPassConfig) (c : UAEPassConfig),
        getUAEPassConfig (configureUAEPass store c) =
          .ok { c with scopes := some (c.scopes.getD DEFAULT_SCOPES) }) ∧
      getUAEPassConfig none =
        .error "UAE Pass not configured. Please call configureUAEPass() first in your app initialization." :=
  ⟨fun _ _ => rfl, rfl⟩

/-- Claim C8 (confirmed): every string the PKCE code-verifier generator can
return — for any sequence of `Math.random()` draws, each of which is below
the alphabet length — has length 128 (hence between 43 and 128 inclusive)
and consists only of characters from the PKCE unreserved set. -/
theorem generateCodeVerifier_pkce (draws : Nat → Nat)
    (h : ∀ i, draws i < possibleChars.length) :
    43 ≤ (generateCodeVerifier draws).length ∧
      (generateCodeVerifier draws).length ≤ 128 ∧
      ∀ c ∈ (generateCodeVerifier draws).data, isPkceUnreserved c = true := by
  have key : ∀ j, j < possibleChars.length →
      (jsCharAt possibleChars j).length = 1 ∧
        ∀ c ∈ jsCharAt possibleChars j, isPkceUnreserved c = true := by
    decide
  have hdata : (generateCodeVerifier draws).data =
      (List.range 128).flatMap fun i => jsCharAt possibleChars (draws i) := rfl
  have hlen : (generateCodeVerifier draws).length = 128 := by
    show (generateCodeVerifier draws).data.length = 128
    rw [hdata, List.length_flatMap]
    simp only [Function.comp_def]
    have hone : ∀ b ∈ (List.range 128).map
        (fun i => (jsCharAt possibleChars (draws i)).length), b = 1 := by
      intro b hb
      rw [List.mem_map] at hb
      obtain ⟨i, _, rfl⟩ := hb
      exact (key (draws i) (h i)).1
    rw [List.eq_replicate_of_mem hone]
    simp [List.sum_replicate]
  refine ⟨by omega, by omega, ?_⟩
  intro c hc
  rw [hdata, List.mem_flatMap] at hc
  obtain ⟨i, _, hci⟩ := hc
  exact (key (draws i) (h i)).2 c hci

/-- Witness for C8: the all-zero draw sequence satisfies the bound, and the
theorem yields the PKCE constraints for it. -/
theorem generateCodeVerifier_pkce_witness :
    (∀ i : Nat, (fun _ : Nat => 0) i < possibleChars.length) ∧
      (43 ≤ (generateCodeVerifier fun _ => 0).length ∧
        (generateCodeVerifier fun _ => 0).length ≤ 128 ∧
        ∀ c ∈ (generateCodeVerifier fun _ => 0).data, isPkceUnreserved c = true) := by
  have h0 : ∀ i : Nat, (fun _ : Nat => 0) i < possibleChars.length := by
    intro i
    show (0 : Nat) < possibleChars.length
    decide
  exact ⟨h0, generateCodeVerifier_pkce (fun _ => 0) h0⟩

/-- Claim C3 (confirmed): for every client id, redirect URI, scope list, ACR
value, and state, `buildAuthorizationURL` produces the authorization
endpoint plus a query string, and parsing that query string recovers
exactly the supplied `state`, `client_id`, `redirect_uri`, `scope` (the
scope list joined with single spaces), and `acr_values`. -/
theorem buildAuthorizationURL_roundTrip (config : UAEPassConfig)
    (clientId redirectUri acrValue state : String) (scopes : List String) :
    ∃ qs : String,
      buildAuthorizationURL config
          { clientId := clientId, redirectUri := redirectUri, scopes := scopes,
            acrValue := acrValue, state := state } =
        config.authorizationEndpoint ++ "?" ++ qs ∧
      getParam (parseQueryPairs qs) "state" = some state ∧
      getParam (parseQueryPairs qs) "client_id" = some clientId ∧
      getParam (parseQueryPairs qs) "redirect_uri" = some redirectUri ∧
      getParam (parseQueryPairs qs) "scope" = some (String.intercalate " " scopes) ∧
      getParam (parseQueryPairs qs) "acr_values" = some acrValue := by
  refine ⟨_, rfl, ?_, ?_, ?_, ?_, ?_⟩ <;>
    rw [parseQueryPairs_serializeQuery] <;>
    simp only [getParam_cons, getParam_nil] <;>
    simp +decide

/-- Claim C5 (confirmed): when the native intent launch and the direct app
launch are unavailable or throw, and the can-open/open-URL pair either
throws, reports the scheme unopenable, or throws on open, the native-app
strategy returns exactly the browser strategy's result for the same
authorization URL, state, and code verifier. -/
theorem appStrategy_fallsBackToBrowser (config : UAEPassConfig)
    (nenv : NativeLaunchEnv) (benv : BrowserEnv)
    (authUrl state codeVerifier : String)
    (hIntent : nenv.openUAEPassWithIntent ≠ some .ok)
    (hLaunch : nenv.launchUAEPassApp ≠ some .ok)
    (hLinking : nenv.canOpenURL = .error () ∨ nenv.canOpenURL = .ok false ∨
      (nenv.canOpenURL = .ok true ∧ nenv.openURL = .thrown)) :
    authenticateWithUAEPassApp config nenv benv authUrl state codeVerifier =
      authenticateWithUAEPassBrowser config benv authUrl state codeVerifier := by
  obtain ⟨pa, oi, la, co, ou, ev⟩ := nenv
  dsimp only at hIntent hLaunch hLinking
  unfold authenticateWithUAEPassApp
  dsimp only
  rcases hLinking with rfl | rfl | ⟨rfl, rfl⟩ <;>
    cases pa <;>
    rcases oi with _ | (_ | _) <;>
    rcases la with _ | (_ | _) <;>
    first
      | rfl
      | exact absurd rfl hIntent
      | exact absurd rfl hLaunch

/-- Witness for C5: a concrete environment where every launch primitive is
unavailable or throws; the app strategy equals the browser strategy. -/
theorem appStrategy_fallsBackToBrowser_witness :
    ({ platformAndroid := true, openUAEPassWithIntent := some .thrown,
       launchUAEPassApp := none, canOpenURL := .ok false, openURL := .ok,
       events := [] } : NativeLaunchEnv).openUAEPassWithIntent ≠ some .ok ∧
      authenticateWithUAEPassApp sampleConfigA
          { platformAndroid := true, openUAEPassWithIntent := some .thrown,
            launchUAEPassApp := none, canOpenURL := .ok false, openURL := .ok,
            events := [] }
          { sessionResult := .cancel, events := [] } "https://auth" "st" "cv" =
        authenticateWithUAEPassBrowser sampleConfigA
          { sessionResult := .cancel, events := [] } "https://auth" "st" "cv" :=
  ⟨by decide,
    appStrategy_fallsBackToBrowser sampleConfigA
      { platformAndroid := true, openUAEPassWithIntent := some .thrown,
        launchUAEPassApp := none, canOpenURL := .ok false, openURL := .ok,
        events := [] }
      { sessionResult := .cancel, events := [] } "https://auth" "st" "cv"
      (by decide) (by decide) (.inr (.inl rfl))⟩

theorem isPrefixOf_append_qmark (pat xd qd : List Char)
    (hpat : ∀ c ∈ pat, c ≠ '?')
    (hpre : pat.isPrefixOf (xd ++ '?' :: qd) = true) :
    (xd ++ '?' :: qd).drop pat.length = xd.drop pat.length ++ '?' :: qd := by
  induction pat generalizing xd with
  | nil => simp
  | cons p pat ih =>
    cases xd with
    | nil =>
      exfalso
      rw [List.nil_append] at hpre
      simp only [List.isPrefixOf, Bool.and_eq_true, beq_iff_eq] at hpre
      exact hpat p (by simp) hpre.1
    | cons x xd' =>
      rw [List.cons_append] at hpre
      simp only [List.isPrefixOf, Bool.and_eq_true] at hpre
      have hrec := ih xd' (fun c hc => hpat c (by simp [hc])) hpre.2
      rw [List.length_cons, List.cons_append, List.drop_succ_cons, List.drop_succ_cons]
      exact hrec

theorem afterQuestionMark_stagingSwap (env : UAEPassEnvironment) (x q : String)
    (hx : ∀ c ∈ x.data, c ≠ '?') :
    afterQuestionMark (stagingSwap env (x ++ "?" ++ q)) = q := by
  unfold stagingSwap
  by_cases hcond : (env = UAEPassEnvironment.staging &&
      jsStartsWith (x ++ "?" ++ q) "uaepass://") = true
  · rw [if_pos hcond]
    rw [Bool.and_eq_true] at hcond
    have hpre : ("uaepass://" : String).data.isPrefixOf ((x ++ "?" ++ q) : String).data
        = true := hcond.2
    unfold replaceFirst
    rw [replaceFirstList.eq_def, if_pos hpre]
    have hdata : ((x ++ "?" ++ q) : String).data = x.data ++ '?' :: q.data := by
      rw [String.data_append, String.data_append, List.append_assoc]
      rfl
    rw [hdata] at hpre
    rw [hdata, isPrefixOf_append_qmark _ _ _ (by decide) hpre]
    unfold afterQuestionMark
    rw [show (String.mk (("uaepassstg://" : String).data ++
      (x.data.drop ("uaepass://" : String).data.length ++ '?' :: q.data))).data =
      ("uaepassstg://" : String).data ++
        (x.data.drop ("uaepass://" : String).data.length ++ '?' :: q.data) from rfl]
    rw [← List.append_assoc]
    have hnq : ∀ c ∈ ("uaepassstg://" : String).data ++
        x.data.drop ("uaepass://" : String).data.length, c ≠ '?' := by
      intro c hc
      rw [List.mem_append] at hc
      have hstg : ∀ d ∈ ("uaepassstg://" : String).data, d ≠ '?' := by decide
      rcases hc with hc | hc
      · exact hstg c hc
      · exact hx c (List.mem_of_mem_drop hc)
    rw [(takeWhile_append_eq '?' _ q.data hnq).2, List.drop_succ_cons, List.drop_zero]
  · rw [if_neg hcond]
    exact afterQuestionMark_append x q hx

theorem jsStartsWith_scheme_callback (scheme mid enc : String) :
    jsStartsWith (scheme ++ mid ++ enc) scheme = true := by
  unfold jsStartsWith
  rw [String.data_append, String.data_append, List.append_assoc]
  exact isPrefixOf_append_self _ _

/-- Claim C7 (confirmed): when the WebView bridge intercepts a navigation to
an IdP-scheme URL whose parsed query carries non-empty `successURL` and
`failureURL` values not already pointing into the host scheme (and both
decode), it saves the decoded pair, rewrites all four case variants of the
success/failure parameters of the outgoing URL to host-scheme resume URLs
(each starting with the host app's scheme), and vetoes the in-surface
navigation by returning false. -/
theorem webViewBridge_rewrites_and_vetoes (ctx : WebViewCtx) (url : String)
    (ps : List (String × String)) (A B decA decB : String)
    (hscheme : jsStartsWith url (uaePassScheme ctx.env) = true ∨
      jsStartsWith url "uaepassstg://" = true ∨ jsStartsWith url "uaepass://" = true)
    (hparse : parseURLQuery (uaePassLinkNormalize ctx.env url) = some ps)
    (hS : getParam ps "successURL" = some A) (hA : A ≠ "")
    (hF : getParam ps "failureURL" = some B) (hB : B ≠ "")
    (hnot : jsIncludes A (ourAppScheme ctx.redirectUri) = false)
    (hdecS : decodeURIComponentModel A = some decA)
    (hdecF : decodeURIComponentModel B = some decB) :
    (handleShouldStartLoadWithRequest ctx url).allowLoad = false ∧
      (handleShouldStartLoadWithRequest ctx url).savedUrls =
        some ⟨decA, decB, url⟩ ∧
      (handleShouldStartLoadWithRequest ctx url).waitingForCallback = true ∧
      ∃ ou, (handleShouldStartLoadWithRequest ctx url).openedUrl = some ou ∧
        ∀ k ∈ (["successURL", "successurl", "failureURL", "failureurl"] :
            List String),
          ∃ cb, getParam (parseQueryPairs (afterQuestionMark ou)) k = some cb ∧
            jsStartsWith cb (ourAppScheme ctx.redirectUri) = true := by
  have hout : handleShouldStartLoadWithRequest ctx url =
      { allowLoad := false
        savedUrls := some ⟨decA, decB, url⟩
        waitingForCallback := true
        openedUrl := some (stagingSwap ctx.env (beforeQuestionMark url ++ "?" ++
          serializeQuery (setParam (setParam (setParam (setParam ps
            "successURL" (ourAppScheme ctx.redirectUri ++ "auth/uaepass/resume?url=" ++
              encodeURIComponentModel A))
            "failureURL" (ourAppScheme ctx.redirectUri ++ "auth/uaepass/resume?url=" ++
              encodeURIComponentModel B))
            "successurl" (ourAppScheme ctx.redirectUri ++ "auth/uaepass/resume?url=" ++
              encodeURIComponentModel A))
            "failureurl" (ourAppScheme ctx.redirectUri ++ "auth/uaepass/resume?url=" ++
              encodeURIComponentModel B))))
        parsedCallbackUrl := none } := by
    unfold handleShouldStartLoadWithRequest
    rw [if_pos (by rcases hscheme with h | h | h <;> simp [h])]
    rw [hparse]
    dsimp only
    rw [hS, hF, jsOrOpt_of_truthy _ _ (jsTruthy_some_ne A hA),
      jsOrOpt_of_truthy _ _ (jsTruthy_some_ne B hB)]
    rw [if_neg (by simp [hnot])]
    rw [if_pos (by rw [jsTruthy_some_ne A hA, jsTruthy_some_ne B hB]; rfl)]
    dsimp only [Option.getD]
    rw [hdecS, hdecF]
  refine ⟨by rw [hout], by rw [hout], by rw [hout], ?_⟩
  refine ⟨_, by rw [hout], ?_⟩
  intro k hk
  rw [afterQuestionMark_stagingSwap ctx.env _ _ (beforeQuestionMark_no_q url),
    parseQueryPairs_serializeQuery]
  simp only [List.mem_cons, List.mem_singleton, List.not_mem_nil, or_false] at hk
  rcases hk with rfl | rfl | rfl | rfl
  · exact ⟨ourAppScheme ctx.redirectUri ++ "auth/uaepass/resume?url=" ++
        encodeURIComponentModel A,
      by
        rw [getParam_setParam_ne _ _ _ _ (by decide),
          getParam_setParam_ne _ _ _ _ (by decide),
          getParam_setParam_ne _ _ _ _ (by decide), getParam_setParam_same],
      jsStartsWith_scheme_callback _ _ _⟩
  · exact ⟨ourAppScheme ctx.redirectUri ++ "auth/uaepass/resume?url=" ++
        encodeURIComponentModel A,
      by rw [getParam_setParam_ne _ _ _ _ (by decide), getParam_setParam_same],
      jsStartsWith_scheme_callback _ _ _⟩
  · exact ⟨ourAppScheme ctx.redirectUri ++ "auth/uaepass/resume?url=" ++
        encodeURIComponentModel B,
      by
        rw [getParam_setParam_ne _ _ _ _ (by decide),
          getParam_setParam_ne _ _ _ _ (by decide), getParam_setParam_same],
      jsStartsWith_scheme_callback _ _ _⟩
  · exact ⟨ourAppScheme ctx.redirectUri ++ "auth/uaepass/resume?url=" ++
        encodeURIComponentModel B,
      by rw [getParam_setParam_same],
      jsStartsWith_scheme_callback _ _ _⟩

/-- Witness for C7: a concrete production-scheme deep link carrying encoded
success and failure URLs is intercepted, saved decoded, rewritten to the
host scheme, and vetoed. -/
theorem webViewBridge_rewrites_and_vetoes_witness :
    jsStartsWith
        "uaepass://idshub/authorize?successURL=https%3A%2F%2Fsp%2Fok&failureURL=https%3A%2F%2Fsp%2Ffail"
        (uaePassScheme UAEPassEnvironment.production) = true ∧
      ((handleShouldStartLoadWithRequest
          ⟨UAEPassEnvironment.production, "myapp://auth/uaepass"⟩
          "uaepass://idshub/authorize?successURL=https%3A%2F%2Fsp%2Fok&failureURL=https%3A%2F%2Fsp%2Ffail").allowLoad
          = false ∧
        (handleShouldStartLoadWithRequest
          ⟨UAEPassEnvironment.production, "myapp://auth/uaepass"⟩
          "uaepass://idshub/authorize?successURL=https%3A%2F%2Fsp%2Fok&failureURL=https%3A%2F%2Fsp%2Ffail").savedUrls
          = some ⟨"https://sp/ok", "https://sp/fail",
            "uaepass://idshub/authorize?successURL=https%3A%2F%2Fsp%2Fok&failureURL=https%3A%2F%2Fsp%2Ffail"⟩ ∧
        (handleShouldStartLoadWithRequest
          ⟨UAEPassEnvironment.production, "myapp://auth/uaepass"⟩
          "uaepass://idshub/authorize?successURL=https%3A%2F%2Fsp%2Fok&failureURL=https%3A%2F%2Fsp%2Ffail").waitingForCallback
          = true ∧
        ∃ ou, (handleShouldStartLoadWithRequest
            ⟨UAEPassEnvironment.production, "myapp://auth/uaepass"⟩
            "uaepass://idshub/authorize?successURL=https%3A%2F%2Fsp%2Fok&failureURL=https%3A%2F%2Fsp%2Ffail").openedUrl
            = some ou ∧
          ∀ k ∈ (["successURL", "successurl", "failureURL", "failureurl"] :
              List String),
            ∃ cb, getParam (parseQueryPairs (afterQuestionMark ou)) k = some cb ∧
              jsStartsWith cb
                (ourAppScheme "myapp://auth/uaepass") = true) :=
  ⟨by decide,
    webViewBridge_rewrites_and_vetoes
      ⟨UAEPassEnvironment.production, "myapp://auth/uaepass"⟩
      "uaepass://idshub/authorize?successURL=https%3A%2F%2Fsp%2Fok&failureURL=https%3A%2F%2Fsp%2Ffail"
      [("successURL", "https://sp/ok"), ("failureURL", "https://sp/fail")]
      "https://sp/ok" "https://sp/fail" "https://sp/ok" "https://sp/fail"
      (.inl (by decide)) (by decide) (by decide) (by decide) (by decide)
      (by decide) (by decide) (by decide) (by decide)⟩

theorem browserTracked_result_agrees (config : UAEPassConfig)
    (benv : BrowserEnv) (authUrl state codeVerifier : String) :
    (authenticateWithUAEPassBrowserTracked config benv authUrl state
        codeVerifier).result =
      authenticateWithUAEPassBrowser config benv authUrl state codeVerifier := by
  obtain ⟨sr, ev⟩ := benv
  cases sr with
  | success u => cases u <;> rfl
  | cancel => rfl
  | dismiss => rfl
  | other => rfl

/-- Claim C6 counterexample: the claim asserts that the first of {matching
event, timeout, session outcome} to occur "determines the result and
unregisters the listener".  At a `cancel` browser-session outcome with no
deep-link events at all, the session outcome determines the result, yet the
function returns with the deep-link subscription still registered — the
`cancel` branch (part_001, lines 285-291) returns without reaching any
`subscription.remove()` call, the subscription being scoped inside the
promise executor. -/
theorem deepLinkRace_unregister_claim_cex :
    (authenticateWithUAEPassBrowserTracked sampleConfigA
        { sessionResult := .cancel, events := [] } "https://auth" "st"
        "cv").result =
      { success := false, error := some "User cancelled authentication" } ∧
      (authenticateWithUAEPassBrowserTracked sampleConfigA
          { sessionResult := .cancel, events := [] } "https://auth" "st"
          "cv").listenerRemoved = false :=
  ⟨rfl, rfl⟩

/-- Claim C6 (corrected): in both strategies the pending result is resolved
exactly once by the first of a matching deep-link event, the 5-minute
timeout, or (in the browser strategy) the explicit session outcome.  The
deep-link event and timeout sources unregister the listener when they
resolve: when no matching event arrives before the timeout, the result is
the respective timeout failure, the listener is unregistered, and matching
events at or after the timeout (e.g. at minute 6) do not change the result;
a matching event strictly before the timeout resolves with the parsed
result, unregisters the listener, and later events are ignored.  A
browser-session outcome (`cancel` or direct success with a URL), however,
determines the result WITHOUT unregistering the listener — the subscription
stays registered until its own event or 5-minute timeout removes it. -/
theorem deepLinkRace_resolution (config : UAEPassConfig)
    (authUrl state codeVerifier : String) (events : List (Nat × String))
    (hev : ∀ e ∈ events, TIMEOUT_MS ≤ e.1) :
    browserDeepLinkPromise state codeVerifier events =
        ⟨browserTimeoutResult, true⟩ ∧
      appDeepLinkPromise config state codeVerifier events =
        ⟨appTimeoutResult, true⟩ ∧
      (∀ t u rest, t < TIMEOUT_MS →
        browserDeepLinkPromise state codeVerifier ((t, u) :: rest) =
          ⟨addCodeVerifier (parseCallbackURL u state) codeVerifier, true⟩) ∧
      (∀ t u rest, t < TIMEOUT_MS → appEventMatches config u = true →
        appDeepLinkPromise config state codeVerifier ((t, u) :: rest) =
          ⟨addCodeVerifier (parseCallbackURL u state) codeVerifier, true⟩) ∧
      (∀ benvEvents, authenticateWithUAEPassBrowserTracked config
          { sessionResult := .cancel, events := benvEvents }
          authUrl state codeVerifier =
        ⟨{ success := false, error := some "User cancelled authentication" },
          false⟩) ∧
      (∀ u benvEvents, authenticateWithUAEPassBrowserTracked config
          { sessionResult := .success (some u), events := benvEvents }
          authUrl state codeVerifier =
        ⟨addCodeVerifier (parseCallbackURL u state) codeVerifier, false⟩) := by
  refine ⟨?_, ?_, ?_, ?_, fun _ => rfl, fun _ _ => rfl⟩
  · exact runDeepLinkPromise_timeout _ _ _ _ _ fun e he _ => hev e he
  · exact runDeepLinkPromise_timeout _ _ _ _ _ fun e he _ => hev e he
  · intro t u rest ht
    exact runDeepLinkPromise_first t u rest _ _ _ _ ht rfl
  · intro t u rest ht hm
    exact runDeepLinkPromise_first t u rest _ _ _ _ ht hm

/-- Witness for C6 (corrected): with a single matching event at minute six
(and none earlier), the browser promise resolves to its timeout failure
with the listener removed. -/
theorem deepLinkRace_resolution_witness :
    (∀ e ∈ [((360000 : Nat), "appa://auth/uaepass?code=x&state=st")],
        TIMEOUT_MS ≤ e.1) ∧
      browserDeepLinkPromise "st" "cv"
          [((360000 : Nat), "appa://auth/uaepass?code=x&state=st")] =
        ⟨browserTimeoutResult, true⟩ :=
  have hev : ∀ e ∈ [((360000 : Nat), "appa://auth/uaepass?code=x&state=st")],
      TIMEOUT_MS ≤ e.1 := by decide
  ⟨hev,
    (deepLinkRace_resolution sampleConfigA "https://auth" "st" "cv"
      [((360000 : Nat), "appa://auth/uaepass?code=x&state=st")] hev).1⟩

end ExpoUAEPass
